import Mathlib

/-!
Verification of the httpmocker request-matching and response-synthesis engine.

The definitions below are a shallow embedding of the Python sources
`httpmocker/config_loader.py` and `httpmocker/request_handler.py`:

* JSON values are modelled by the inductive `Json` (numbers restricted to
  integers; no claim depends on float formatting), and `serialize` models
  `json.dumps(payload, ensure_ascii=False)` with its default separators.
* The pydantic `Endpoint` model and its validators are modelled by the
  `Endpoint` structure together with `check_endpoint`; the full
  `load_config` pipeline (per-endpoint validation, non-empty check,
  payload-file existence check) is `load_config`, parameterised by a
  file-existence oracle.
* The Bottle request handler is modelled by `handle_request` /
  `handle_matched_endpoint` / `handle_unmatched_request`, with the file
  system abstracted as an oracle `String → Option Json` (`none` models an
  unreadable file or one whose content is not valid JSON) and Python's
  `SystemExit(code)` modelled as `Except.error code`.
* The chunked sleep loop `_interruptible_delay` is modelled over exact
  rationals (`delay_loop` / `interruptible_delay`).
-/

/-- JSON values as produced by Python's `json.load`: objects keep their
field order (Python dicts preserve insertion order), numbers are modelled
as integers. -/
inductive Json where
  | null : Json
  | bool : Bool → Json
  | num : Int → Json
  | str : String → Json
  | arr : List Json → Json
  | obj : List (String × Json) → Json

/-- Lower-case hexadecimal digit, as used by Python's json escaping. -/
def hex_digit (n : Nat) : Char :=
  if n < 10 then Char.ofNat (48 + n) else Char.ofNat (87 + n)

/-- Escaping of a single character inside a JSON string literal, as done by
`json.dumps` with `ensure_ascii=False`: only the quote, the backslash and
control characters below 0x20 are escaped; everything else (including
non-ASCII text) is passed through literally. -/
def escape_char (c : Char) : String :=
  if c = '"' then "\\\""
  else if c = '\\' then "\\\\"
  else if c = '\n' then "\\n"
  else if c = '\r' then "\\r"
  else if c = '\t' then "\\t"
  else if c = '\x08' then "\\b"
  else if c = '\x0c' then "\\f"
  else if c.toNat < 32 then
    "\\u00" ++ String.mk [hex_digit (c.toNat / 16), hex_digit (c.toNat % 16)]
  else String.mk [c]

/-- A JSON string literal: quotes around the escaped characters. -/
def escape_string (s : String) : String :=
  "\"" ++ String.join (s.toList.map escape_char) ++ "\""

mutual

/-- Models `json.dumps(payload, ensure_ascii=False)`: default separators,
so items are joined by a comma and a space and keys are followed by a colon
and a space. -/
def serialize : Json → String
  | .null => "null"
  | .bool true => "true"
  | .bool false => "false"
  | .num n => toString n
  | .str s => escape_string s
  | .arr xs => "[" ++ serialize_items xs ++ "]"
  | .obj fs => "\x7b" ++ serialize_fields fs ++ "\x7d"

/-- Array items joined by the default item separator of `json.dumps`. -/
def serialize_items : List Json → String
  | [] => ""
  | [x] => serialize x
  | x :: y :: rest => serialize x ++ ", " ++ serialize_items (y :: rest)

/-- Object fields joined by the default separators of `json.dumps`. -/
def serialize_fields : List (String × Json) → String
  | [] => ""
  | [(k, v)] => escape_string k ++ ": " ++ serialize v
  | (k, v) :: f :: rest =>
      escape_string k ++ ": " ++ serialize v ++ ", " ++ serialize_fields (f :: rest)

end

/-- Configuration model for a single API endpoint
(`config_loader.Endpoint`).  `payload_inline` mirrors the declared pydantic
field type `Optional[Dict[str, Any]]`: when present it is a string-keyed
JSON object, given by its fields. -/
structure Endpoint where
  method : String
  path : String
  status : Int
  delay_ms : Int
  payload_inline : Option (List (String × Json))
  payload_file : Option String

/-- The observable parts of a Bottle response produced by the handler:
status code, the `Content-Type` header if the handler set one, the
`Content-Length` header if the handler set one explicitly, and the body
text returned by the handler (sent UTF-8 encoded). -/
structure Response where
  status : Int
  content_type : Option String
  content_length : Option Nat
  body : String

/-- Models Python's `str.isupper` on the ASCII fragment (HTTP methods are
ASCII): true iff the string has at least one cased character and no
lowercase character. -/
def isupper (s : String) : Bool :=
  s.toList.any (fun c => c.isUpper || c.isLower) && s.toList.all (fun c => !c.isLower)

/-- The validators of the pydantic `Endpoint` model, run in declaration
order (`validate_method`, `validate_status`, `validate_delay`) followed by
the exactly-one-payload check performed in `Endpoint.__init__`.  A raised
`ValueError` is modelled as `Except.error` carrying the message. -/
def check_endpoint (e : Endpoint) : Except String Unit :=
  if isupper e.method = false then
    .error ("HTTP method must be uppercase, got: " ++ e.method)
  else if e.status < 100 ∨ 599 < e.status then
    .error "HTTP status code must be between 100-599"
  else if e.delay_ms < 0 then
    .error "Delay must be non-negative"
  else if e.payload_inline.isNone ∧ e.payload_file.isNone then
    .error "Either payload_inline or payload_file must be specified"
  else if e.payload_inline.isSome ∧ e.payload_file.isSome then
    .error "Cannot specify both payload_inline and payload_file"
  else
    .ok ()

/-- Validation of the endpoint list: each `Endpoint` is constructed (and
validated) in order; the first failure aborts, as pydantic aborts parsing
`Config(**config_data)`. -/
def check_endpoints : List Endpoint → Except String Unit
  | [] => .ok ()
  | e :: rest =>
    match check_endpoint e with
    | .error m => .error m
    | .ok _ => check_endpoints rest

/-- `_validate_payload_files`: the referenced payload files that do not
exist according to the file-existence oracle `file_exists`, collected in
configuration order.  The source guards with Python truthiness
(`if endpoint.payload_file:`), which skips both `None` and the empty
string, so an empty-string path is never checked for existence. -/
def missing_files (es : List Endpoint) (file_exists : String → Bool) : List String :=
  es.filterMap fun e =>
    match e.payload_file with
    | some p =>
      if p = "" then none
      else if file_exists p then none else some p
    | none => none

/-- The `load_config` validation pipeline over schema-typed endpoint data:
per-endpoint validators, then the `Config` non-empty check, then
`_validate_payload_files`.  `Except.error` models the process exiting with
a configuration error. -/
def load_config (es : List Endpoint) (file_exists : String → Bool) :
    Except String (List Endpoint) :=
  match check_endpoints es with
  | .error m => .error m
  | .ok _ =>
    if es.isEmpty then .error "At least one endpoint must be configured"
    else if (missing_files es file_exists).isEmpty then .ok es
    else .error "Missing payload files"

/-- Models pydantic's validation of the declared field type
`Optional[Dict[str, Any]]` applied to a JSON-decoded configuration value:
a JSON object passes through as the dict, JSON `null` is accepted by the
`Optional` as the field being absent, and any other JSON value is rejected
with a dict type error.  (pydantic v1 additionally coerces sequences of
key/value pairs through Python's `dict()`; that version-dependent corner is
modelled as rejection and no theorem below depends on the array case.) -/
def validate_payload_inline_field :
    Option Json → Except String (Option (List (String × Json)))
  | none => .ok none
  | some Json.null => .ok none
  | some (Json.obj fs) => .ok (some fs)
  | some _ => .error "value is not a valid dict"

/-- Construction of one `Endpoint` from a raw configuration entry whose
`method`, `path`, `status` and `delay_ms` fields are already of the right
primitive type: the `payload_inline` field is validated against its
declared dict type, then the model validators run. -/
def mk_endpoint_raw (method path : String) (status delay_ms : Int)
    (payload_inline_raw : Option Json) (payload_file : Option String) :
    Except String Endpoint :=
  match validate_payload_inline_field payload_inline_raw with
  | .error m => .error m
  | .ok payload_inline =>
    let e : Endpoint := ⟨method, path, status, delay_ms, payload_inline, payload_file⟩
    match check_endpoint e with
    | .error m => .error m
    | .ok _ => .ok e

/-- `config_loader.load_payload_file`: reading and JSON-parsing a payload
file at request time.  The oracle `fs` returns the parsed JSON content of a
readable, valid file and `none` for an unreadable file or invalid JSON; on
failure the function raises `SystemExit(1)`, modelled as `Except.error 1`. -/
def load_payload_file (fs : String → Option Json) (file_path : String) :
    Except Nat Json :=
  match fs file_path with
  | some j => .ok j
  | none => .error 1

/-- Payload resolution in `_handle_matched_endpoint`: the inline payload if
present, otherwise the payload file is read and parsed.  (After validation
exactly one source is present; the impossible neither-source case is mapped
to the same error as an unreadable file.) -/
def resolve_payload (fs : String → Option Json) (e : Endpoint) : Except Nat Json :=
  match e.payload_inline with
  | some d => .ok (Json.obj d)
  | none =>
    match e.payload_file with
    | some p => load_payload_file fs p
    | none => .error 1

/-- `_handle_matched_endpoint`: sets the configured status, resolves the
payload, then applies the body/header policy in source order — status 204
first (no body, no content type), then request method HEAD (headers of the
would-be body, zero body bytes), then the normal JSON response.  The
configured delay only affects timing, which is modelled separately by
`interruptible_delay`. -/
def handle_matched_endpoint (fs : String → Option Json) (req_method : String)
    (e : Endpoint) : Except Nat Response :=
  match resolve_payload fs e with
  | .error c => .error c
  | .ok payload =>
    if e.status = 204 then
      .ok ⟨e.status, none, none, ""⟩
    else if req_method = "HEAD" then
      let json_payload := serialize payload
      .ok ⟨e.status, some "application/json", some json_payload.utf8ByteSize, ""⟩
    else
      .ok ⟨e.status, some "application/json", none, serialize payload⟩

/-- `_handle_unmatched_request`: status 404, JSON content type, and the
returned dict, which Bottle serializes with `json.dumps`. -/
def handle_unmatched_request : Response :=
  ⟨404, some "application/json", none,
    serialize (Json.obj [("error", Json.str "endpoint not found")])⟩

/-- The endpoint lookup dictionary built in `create_app`: starting from the
empty dict, each endpoint is stored under the key `(method, path)`,
overwriting any earlier entry for the same key (Python dict assignment). -/
def endpoint_map (endpoints : List Endpoint) :
    String × String → Option Endpoint :=
  endpoints.foldl
    (fun m e => fun k => if k = (e.method, e.path) then some e else m k)
    (fun _ => none)

/-- `handle_request` (and `handle_root`): the request's method together
with the full path (the path component with its canonical leading slash, as
reconstructed from the route capture) is looked up in the endpoint map. -/
def handle_request (table : String × String → Option Endpoint)
    (fs : String → Option Json) (req_method full_path : String) :
    Except Nat Response :=
  match table (req_method, full_path) with
  | some e => handle_matched_endpoint fs req_method e
  | none => .ok handle_unmatched_request

/-- Models the transport layer's extraction of the path component from the
request target: WSGI routing is on `PATH_INFO`, which excludes the query
string, so everything from the first `?` on is dropped before the handler
ever sees the path. -/
def strip_query (target : String) : String :=
  String.mk (target.toList.takeWhile (fun c => c != '?'))

/-- A full dispatch of a raw request target: the transport strips the query
string, then the handler matches on the remaining path. -/
def handle_target (table : String × String → Option Endpoint)
    (fs : String → Option Json) (req_method target : String) :
    Except Nat Response :=
  handle_request table fs req_method (strip_query target)

/-- The loop of `_interruptible_delay`, over exact rationals (the Python
source computes with floats; the spec's contract is about the exact
accumulated total): while `elapsed < total`, sleep
`min chunk (total - elapsed)` with `chunk = 0.1` seconds and add the slept
time to `elapsed`.  The returned list collects the individual sleep
increments; the explicit fuel only bounds the number of iterations the
model may take and `none` is returned when it is exhausted. -/
def delay_loop (fuel : Nat) (elapsed total : ℚ) : Option (List ℚ) :=
  match fuel with
  | 0 => if elapsed < total then none else some []
  | fuel + 1 =>
    if elapsed < total then
      let sleep_time := min (1 / 10 : ℚ) (total - elapsed)
      (delay_loop fuel (elapsed + sleep_time) total).map (fun l => sleep_time :: l)
    else some []

/-- `_interruptible_delay delay_ms`: the sequence of sleep increments (in
seconds) performed for a total delay of `delay_ms / 1000` seconds, with
enough fuel for the loop to run to completion. -/
def interruptible_delay (delay_ms : Nat) : Option (List ℚ) :=
  delay_loop (delay_ms / 100 + 1) 0 ((delay_ms : ℚ) / 1000)

/-- Concrete fixture endpoint used by witnesses: the spec's end-to-end
`GET /ping` example (with a dict payload, as the field type requires). -/
def ep_ping : Endpoint := ⟨"GET", "/ping", 200, 0, some [("ok", Json.bool true)], none⟩

/-- A file-system oracle with no readable payload files. -/
def no_fs : String → Option Json := fun _ => none

/-- Unfolding the dictionary-building fold: a lookup in the built dict
returns the last endpoint whose key matches, falling back to the initial
dict. -/
theorem endpoint_map_foldl (es : List Endpoint)
    (init : String × String → Option Endpoint) (k : String × String) :
    (es.foldl (fun m e => fun k => if k = (e.method, e.path) then some e else m k) init) k
      = (es.reverse.find? (fun e => decide ((e.method, e.path) = k))).or (init k) := by
  induction es generalizing init with
  | nil => simp
  | cons e tl ih =>
    rw [List.foldl_cons, ih, List.reverse_cons, List.find?_append]
    by_cases h : k = (e.method, e.path)
    · cases htl : tl.reverse.find? (fun e' => decide ((e'.method, e'.path) = k)) <;>
        simp [List.find?, h.symm, htl, Option.or]
    · have hne : ¬(e.method, e.path) = k := fun hh => h hh.symm
      cases htl : tl.reverse.find? (fun e' => decide ((e'.method, e'.path) = k)) <;>
        simp [List.find?, htl, Option.or, h, hne]

/-- The endpoint lookup dictionary maps a key to the latest configured
endpoint with exactly that `(method, path)` key. -/
theorem endpoint_map_eq_find (es : List Endpoint) (k : String × String) :
    endpoint_map es k = es.reverse.find? (fun e => decide ((e.method, e.path) = k)) := by
  rw [endpoint_map, endpoint_map_foldl]
  cases es.reverse.find? (fun e => decide ((e.method, e.path) = k)) <;> rfl

/-- A successful lookup only ever returns an endpoint stored under its own
`(method, path)` key: matching is exact byte-for-byte string equality. -/
theorem endpoint_map_some_key (es : List Endpoint) (k : String × String)
    (E : Endpoint) (h : endpoint_map es k = some E) : k = (E.method, E.path) := by
  rw [endpoint_map_eq_find] at h
  have := List.find?_some h
  simpa [eq_comm] using of_decide_eq_true this

/-- `takeWhile` keeps a whole question-mark-free prefix and stops at the
first `?`. -/
theorem takeWhile_no_query_append (l r : List Char) (h : '?' ∉ l) :
    (l ++ '?' :: r).takeWhile (fun c => c != '?') = l := by
  induction l with
  | nil => simp [List.takeWhile]
  | cons c cs ih =>
    have hc : c ≠ '?' := fun hh => h (hh ▸ List.mem_cons_self c cs)
    have hcs : '?' ∉ cs := fun hh => h (List.mem_cons_of_mem c hh)
    have hcd : (c != '?') = true := by simp [hc]
    simp only [List.cons_append, List.takeWhile, hcd]
    exact congrArg (c :: ·) (ih hcs)

/-- `takeWhile` is the identity on a question-mark-free list. -/
theorem takeWhile_no_query (l : List Char) (h : '?' ∉ l) :
    l.takeWhile (fun c => c != '?') = l := by
  induction l with
  | nil => rfl
  | cons c cs ih =>
    have hc : c ≠ '?' := fun hh => h (hh ▸ List.mem_cons_self c cs)
    have hcs : '?' ∉ cs := fun hh => h (List.mem_cons_of_mem c hh)
    have hcd : (c != '?') = true := by simp [hc]
    simp only [List.takeWhile, hcd]
    exact congrArg (c :: ·) (ih hcs)

/-- Concatenating strings concatenates their character lists. -/
theorem string_toList_append (a b : String) : (a ++ b).toList = a.toList ++ b.toList := by
  cases a; cases b; rfl

/-- Rebuilding a string from its character list gives it back. -/
theorem string_mk_toList (s : String) : String.mk s.toList = s := by
  cases s; rfl

/-- Stripping the query string from a target with a query gives the same
path as the target without it. -/
theorem strip_query_append (p q : String) (h : '?' ∉ p.toList) :
    strip_query (p ++ "?" ++ q) = strip_query p := by
  rw [strip_query, strip_query, string_toList_append, string_toList_append]
  have hq : ("?" : String).toList = ['?'] := rfl
  rw [hq, List.append_assoc]
  simp only [List.cons_append, List.nil_append]
  rw [takeWhile_no_query_append _ _ h, takeWhile_no_query _ h]

/-- Invariant of the chunked sleep loop: given enough fuel for the
remaining time, the loop terminates, its increments are positive and at
most one chunk (0.1 s), and they add up exactly to the remaining time. -/
theorem delay_loop_spec (fuel : Nat) :
    ∀ elapsed total : ℚ, elapsed ≤ total → total - elapsed ≤ fuel * (1 / 10) →
    ∃ l, delay_loop fuel elapsed total = some l ∧
      l.sum = total - elapsed ∧ ∀ s ∈ l, 0 < s ∧ s ≤ 1 / 10 := by
  induction fuel with
  | zero =>
    intro e t hle hb
    have het : e = t := le_antisymm hle (by simpa using hb)
    refine ⟨[], ?_, ?_, by simp⟩
    · simp [delay_loop, het]
    · simp [het]
  | succ f ih =>
    intro e t hle hb
    by_cases h : e < t
    · have hr : 0 < t - e := by linarith
      have hs0 : 0 < min (1 / 10 : ℚ) (t - e) := lt_min (by norm_num) hr
      have hs10 : min (1 / 10 : ℚ) (t - e) ≤ 1 / 10 := min_le_left _ _
      have hset : min (1 / 10 : ℚ) (t - e) ≤ t - e := min_le_right _ _
      have h1 : e + min (1 / 10 : ℚ) (t - e) ≤ t := by linarith
      have h2 : t - (e + min (1 / 10 : ℚ) (t - e)) ≤ f * (1 / 10) := by
        rcases le_or_lt (1 / 10 : ℚ) (t - e) with hc | hc
        · rw [min_eq_left hc]
          push_cast at hb ⊢
          linarith
        · rw [min_eq_right (le_of_lt hc)]
          have : (0 : ℚ) ≤ f * (1 / 10) := by positivity
          linarith
      obtain ⟨l, hl, hsum, hbnd⟩ := ih (e + min (1 / 10 : ℚ) (t - e)) t h1 h2
      refine ⟨min (1 / 10 : ℚ) (t - e) :: l, ?_, ?_, ?_⟩
      · simp only [delay_loop, if_pos h, hl]; rfl
      · rw [List.sum_cons, hsum]; ring
      · intro x hx
        rcases List.mem_cons.mp hx with rfl | hx
        · exact ⟨hs0, hs10⟩
        · exact hbnd x hx
    · have het : e = t := le_antisymm hle (not_lt.mp h)
      exact ⟨[], by simp [delay_loop, h], by simp [het], by simp⟩

/-- A single endpoint's validation fails exactly on the conditions the
individual validators test: method not uppercase, status out of range,
negative delay, or not exactly one payload source. -/
theorem check_endpoint_error_iff (e : Endpoint) :
    (∃ m, check_endpoint e = .error m) ↔
      (isupper e.method = false ∨ e.status < 100 ∨ 599 < e.status ∨
        e.delay_ms < 0 ∨ e.payload_inline.isSome = e.payload_file.isSome) := by
  obtain ⟨me, pa, st, de, pi, pf⟩ := e
  unfold check_endpoint
  cases pi <;> cases pf <;> split_ifs <;> simp_all <;> omega

/-- The endpoint list fails validation exactly when some endpoint in it
fails its own validation. -/
theorem check_endpoints_error_iff (es : List Endpoint) :
    (∃ m, check_endpoints es = .error m) ↔
      ∃ e ∈ es, ∃ m, check_endpoint e = .error m := by
  induction es with
  | nil => simp [check_endpoints]
  | cons e tl ih =>
    unfold check_endpoints
    cases he : check_endpoint e with
    | error m => simp [he]
    | ok u => cases u; simp [he, ih]

/-- If every endpoint passes its validation, the list passes. -/
theorem check_endpoints_ok_of_all (es : List Endpoint)
    (h : es.all (fun e => (check_endpoint e).isOk) = true) :
    check_endpoints es = .ok () := by
  induction es with
  | nil => rfl
  | cons e tl ih =>
    simp only [List.all_cons, Bool.and_eq_true] at h
    unfold check_endpoints
    cases he : check_endpoint e with
    | error m => rw [he] at h; simp [Except.isOk, Except.toBool] at h
    | ok u => cases u; exact ih h.2

/-- The missing-payload-file collection is nonempty exactly when some
endpoint references a non-empty file path the oracle says does not exist
(an empty-string path is skipped by the truthiness guard). -/
theorem missing_files_ne_iff (es : List Endpoint) (file_exists : String → Bool) :
    (missing_files es file_exists).isEmpty = false ↔
      ∃ e ∈ es, ∃ p, e.payload_file = some p ∧ p ≠ "" ∧ file_exists p = false := by
  have hmem : ∀ x, x ∈ missing_files es file_exists ↔
      ∃ e ∈ es, e.payload_file = some x ∧ x ≠ "" ∧ file_exists x = false := by
    intro x
    rw [missing_files, List.mem_filterMap]
    constructor
    · rintro ⟨e, he, hfe⟩
      rcases hpf : e.payload_file with _ | p <;> rw [hpf] at hfe
      · simp at hfe
      · by_cases hpe : p = ""
        · simp [hpe] at hfe
        · by_cases hex : file_exists p = true
          · simp [hpe, hex] at hfe
          · simp only [Bool.not_eq_true] at hex
            simp [hpe, hex] at hfe
            exact ⟨e, he, hfe ▸ hpf, hfe ▸ hpe, hfe ▸ hex⟩
    · rintro ⟨e, he, hp, hne, hex⟩
      exact ⟨e, he, by rw [hp]; simp [hne, hex]⟩
  constructor
  · intro h
    have hne : missing_files es file_exists ≠ [] := by
      intro hh; rw [hh] at h; simp at h
    obtain ⟨y, hy⟩ := List.exists_mem_of_ne_nil _ hne
    obtain ⟨e, he, hp, hpe, hex⟩ := (hmem y).mp hy
    exact ⟨e, he, y, hp, hpe, hex⟩
  · rintro ⟨e, he, p, hp, hpe, hex⟩
    have hmm : p ∈ missing_files es file_exists := (hmem p).mpr ⟨e, he, hp, hpe, hex⟩
    cases hl : missing_files es file_exists with
    | nil => rw [hl] at hmm; simp at hmm
    | cons y ys => rfl

/-- C1: for every endpoint E held in the endpoint table under its own
`(E.method, E.path)` key, a request whose method and path are byte-identical
to E's method and path receives a response whose status is E's configured
status, and, whenever that status is not 204 and the method is not HEAD,
whose `Content-Type` is `application/json` and whose body is exactly the
JSON serialization of E's payload. -/
theorem matched_request_returns_configured_response
    (es : List Endpoint) (fs : String → Option Json) (E : Endpoint) (pl : Json)
    (hlook : endpoint_map es (E.method, E.path) = some E)
    (hpl : resolve_payload fs E = .ok pl) :
    ∃ r, handle_request (endpoint_map es) fs E.method E.path = .ok r ∧
      r.status = E.status ∧
      (E.status ≠ 204 → E.method ≠ "HEAD" →
        r.content_type = some "application/json" ∧ r.body = serialize pl) := by
  simp only [handle_request, hlook, handle_matched_endpoint, hpl]
  by_cases h204 : E.status = 204
  · rw [if_pos h204]
    exact ⟨_, rfl, rfl, fun h _ => absurd h204 h⟩
  · rw [if_neg h204]
    by_cases hhead : E.method = "HEAD"
    · rw [if_pos hhead]
      exact ⟨_, rfl, rfl, fun _ h => absurd hhead h⟩
    · rw [if_neg hhead]
      exact ⟨_, rfl, rfl, fun _ _ => ⟨rfl, rfl⟩⟩

/-- Witness for C1 at the spec's `GET /ping` fixture. -/
theorem matched_request_returns_configured_response_witness :
    ∃ r, handle_request (endpoint_map [ep_ping]) no_fs ep_ping.method ep_ping.path = .ok r ∧
      r.status = ep_ping.status ∧
      (ep_ping.status ≠ 204 → ep_ping.method ≠ "HEAD" →
        r.content_type = some "application/json" ∧
        r.body = serialize (Json.obj [("ok", Json.bool true)])) :=
  matched_request_returns_configured_response [ep_ping] no_fs ep_ping
    (Json.obj [("ok", Json.bool true)]) rfl rfl

/-- C2: a request whose `(method, path)` pair is not a key of the endpoint
table gets status 404, `Content-Type: application/json`, and a body that is
exactly the serialization of the dict returned by the handler, the bytes
of `\x7b"error": "endpoint not found"\x7d`. -/
theorem unmatched_request_404_exact_body
    (es : List Endpoint) (fs : String → Option Json) (m p : String)
    (h : endpoint_map es (m, p) = none) :
    handle_request (endpoint_map es) fs m p =
      .ok ⟨404, some "application/json", none,
        "\x7b\"error\": \"endpoint not found\"\x7d"⟩ := by
  unfold handle_request
  rw [h]
  rfl

/-- Witness for C2: a `GET /pong` request against the `/ping` fixture. -/
theorem unmatched_request_404_exact_body_witness :
    handle_request (endpoint_map [ep_ping]) no_fs "GET" "/pong" =
      .ok ⟨404, some "application/json", none,
        "\x7b\"error\": \"endpoint not found\"\x7d"⟩ :=
  unmatched_request_404_exact_body [ep_ping] no_fs "GET" "/pong" rfl

/-- C4: a matched endpoint whose configured status is 204 yields, for every
request method and independently of the resolved payload, a response with
no body bytes, no `Content-Type` header, and no explicit `Content-Length`. -/
theorem status_204_no_body_no_content_type
    (fs : String → Option Json) (req_method : String) (E : Endpoint) (pl : Json)
    (hpl : resolve_payload fs E = .ok pl) (h204 : E.status = 204) :
    handle_matched_endpoint fs req_method E = .ok ⟨204, none, none, ""⟩ := by
  simp only [handle_matched_endpoint, hpl]
  rw [h204]
  rfl

/-- Witness for C4: a 204 endpoint with a nonempty payload, matched by a
HEAD request (the 204 branch wins over the HEAD branch). -/
theorem status_204_no_body_no_content_type_witness :
    handle_matched_endpoint no_fs "HEAD"
        ⟨"HEAD", "/gone", 204, 0, some [("x", Json.num 1)], none⟩ =
      .ok ⟨204, none, none, ""⟩ :=
  status_204_no_body_no_content_type no_fs "HEAD"
    ⟨"HEAD", "/gone", 204, 0, some [("x", Json.num 1)], none⟩
    (Json.obj [("x", Json.num 1)]) rfl rfl

/-- C5: an endpoint with status other than 204 matched by a HEAD request
yields a response with zero body bytes, `Content-Type: application/json`,
and a `Content-Length` equal to the UTF-8 byte length of the body that the
same endpoint would produce for a non-HEAD (GET) request, which is the JSON
serialization of the payload. -/
theorem head_empty_body_content_length
    (fs : String → Option Json) (E : Endpoint) (pl : Json)
    (hpl : resolve_payload fs E = .ok pl) (h204 : E.status ≠ 204) :
    ∃ rh rg,
      handle_matched_endpoint fs "HEAD" E = .ok rh ∧
      handle_matched_endpoint fs "GET" E = .ok rg ∧
      rh.body = "" ∧ rh.content_type = some "application/json" ∧
      rh.content_length = some rg.body.utf8ByteSize ∧ rg.body = serialize pl := by
  refine ⟨⟨E.status, some "application/json", some (serialize pl).utf8ByteSize, ""⟩,
    ⟨E.status, some "application/json", none, serialize pl⟩, ?_, ?_, rfl, rfl, rfl, rfl⟩
  · simp only [handle_matched_endpoint, hpl]
    rw [if_neg h204]
    rfl
  · simp only [handle_matched_endpoint, hpl]
    rw [if_neg h204]
    rfl

/-- Witness for C5 at a concrete HEAD endpoint. -/
theorem head_empty_body_content_length_witness :
    ∃ rh rg,
      handle_matched_endpoint no_fs "HEAD"
          ⟨"HEAD", "/ping", 200, 0, some [("ok", Json.bool true)], none⟩ = .ok rh ∧
      handle_matched_endpoint no_fs "GET"
          ⟨"HEAD", "/ping", 200, 0, some [("ok", Json.bool true)], none⟩ = .ok rg ∧
      rh.body = "" ∧ rh.content_type = some "application/json" ∧
      rh.content_length = some rg.body.utf8ByteSize ∧
      rg.body = serialize (Json.obj [("ok", Json.bool true)]) :=
  head_empty_body_content_length no_fs
    ⟨"HEAD", "/ping", 200, 0, some [("ok", Json.bool true)], none⟩
    (Json.obj [("ok", Json.bool true)]) rfl (by decide)

/-- C3: endpoint lookup is exact byte-for-byte comparison on
`(method, path)` with the query string excluded: (i) a lookup only ever
returns an endpoint stored under exactly its own `(method, path)` key, so
(ii) a request key differing in any byte — in particular only in letter
case — never matches that endpoint; and (iii) appending a query string to a
request target leaves the entire dispatch result unchanged. -/
theorem matching_exact_and_query_insensitive :
    (∀ (es : List Endpoint) (k : String × String) (E : Endpoint),
        endpoint_map es k = some E → k = (E.method, E.path)) ∧
    (∀ (es : List Endpoint) (k : String × String) (E : Endpoint),
        k ≠ (E.method, E.path) → endpoint_map es k ≠ some E) ∧
    (∀ (table : String × String → Option Endpoint) (fs : String → Option Json)
        (m p q : String), '?' ∉ p.toList →
        handle_target table fs m (p ++ "?" ++ q) = handle_target table fs m p) := by
  refine ⟨endpoint_map_some_key, ?_, ?_⟩
  · intro es k E hne hsome
    exact hne (endpoint_map_some_key es k E hsome)
  · intro table fs m p q hq
    unfold handle_target
    rw [strip_query_append p q hq]

/-- Witness for C3: with a single configured `GET /ping` endpoint, the
exact key matches and returns its own key, a key differing only in case
does not return the endpoint, and a query string does not change the
dispatch result. -/
theorem matching_exact_and_query_insensitive_witness :
    ("GET", "/ping") = (ep_ping.method, ep_ping.path) ∧
    endpoint_map [ep_ping] ("GET", "/Ping") ≠ some ep_ping ∧
    handle_target (endpoint_map [ep_ping]) no_fs "GET" ("/ping" ++ "?" ++ "x=1") =
      handle_target (endpoint_map [ep_ping]) no_fs "GET" "/ping" :=
  ⟨matching_exact_and_query_insensitive.1 [ep_ping] ("GET", "/ping") ep_ping rfl,
   matching_exact_and_query_insensitive.2.1 [ep_ping] ("GET", "/Ping") ep_ping
     (by decide),
   matching_exact_and_query_insensitive.2.2 (endpoint_map [ep_ping]) no_fs
     "GET" "/ping" "x=1" (by decide)⟩

/-- An endpoint whose only payload source is an empty-string file path,
used to exhibit the truthiness gap of `_validate_payload_files`. -/
def ep_empty_file : Endpoint := ⟨"GET", "/x", 200, 0, none, some ""⟩

/-- A file-existence oracle for a disk with no files at all
(in particular `os.path.exists("")` is `False`). -/
def no_disk : String → Bool := fun _ => false

/-- C7 counterexample: an endpoint whose `payload_file` is the empty
string references a file that does not exist on disk (the oracle here says
no path exists, matching `os.path.exists("") == False`), yet it passes
endpoint validation (the payload source check uses `is not None`, so the
empty string is one payload source) and the existence check skips it
(`if endpoint.payload_file:` is falsy), so the configuration loads
successfully — refuting, at this concrete input, the claim that
construction fails whenever a referenced payload file does not exist. -/
theorem empty_payload_file_path_loads :
    ep_empty_file.payload_file = some "" ∧ no_disk "" = false ∧
    load_config [ep_empty_file] no_disk = .ok [ep_empty_file] :=
  ⟨rfl, rfl, rfl⟩

/-- C7 (amended): loading a (schema-typed) configuration fails if and only
if some endpoint has a non-uppercase method, a status outside 100..599, a
negative delay, or zero or two payload sources, or the endpoint list is
empty, or some referenced *non-empty* payload file path does not exist at
load time; otherwise loading succeeds.  (An empty-string `payload_file`
counts as the endpoint's payload source but is skipped by the truthiness
guard of the existence check, so it never fails construction.) -/
theorem construction_fails_iff_listed_conditions
    (es : List Endpoint) (file_exists : String → Bool) :
    (∃ msg, load_config es file_exists = .error msg) ↔
      ((∃ e ∈ es, isupper e.method = false ∨ e.status < 100 ∨ 599 < e.status ∨
          e.delay_ms < 0 ∨ e.payload_inline.isSome = e.payload_file.isSome)
        ∨ es = []
        ∨ (∃ e ∈ es, ∃ p, e.payload_file = some p ∧ p ≠ "" ∧ file_exists p = false)) := by
  unfold load_config
  cases hc : check_endpoints es with
  | error m =>
    have h1 : ∃ e ∈ es, ∃ m, check_endpoint e = .error m :=
      (check_endpoints_error_iff es).mp ⟨m, hc⟩
    constructor
    · intro _
      left
      obtain ⟨e, he, hm⟩ := h1
      exact ⟨e, he, (check_endpoint_error_iff e).mp hm⟩
    · intro _
      exact ⟨m, rfl⟩
  | ok u =>
    cases u
    have hnone : ¬∃ e ∈ es, ∃ m, check_endpoint e = .error m := by
      intro hcon
      obtain ⟨m, hm⟩ := (check_endpoints_error_iff es).mpr hcon
      rw [hc] at hm
      exact Except.noConfusion hm
    by_cases hemp : es.isEmpty
    · rw [if_pos hemp]
      simp only [List.isEmpty_iff] at hemp
      constructor
      · intro _
        right; left; exact hemp
      · intro _
        exact ⟨_, rfl⟩
    · rw [if_neg hemp]
      simp only [List.isEmpty_iff] at hemp
      by_cases hmf : (missing_files es file_exists).isEmpty
      · rw [if_pos hmf]
        constructor
        · rintro ⟨m, hm⟩
          exact Except.noConfusion hm
        · rintro (⟨e, he, hd⟩ | hnil | hfile)
          · exact absurd ⟨e, he, (check_endpoint_error_iff e).mpr hd⟩ hnone
          · exact absurd hnil hemp
          · have := (missing_files_ne_iff es file_exists).mpr hfile
            rw [hmf] at this
            exact Bool.noConfusion this
      · rw [if_neg hmf]
        constructor
        · intro _
          right; right
          exact (missing_files_ne_iff es file_exists).mp
            (Bool.not_eq_true _ ▸ (by simpa using hmf))
        · intro _
          exact ⟨_, rfl⟩

/-- C8: for every non-negative configured delay, the chunked sleep loop of
the interruptible delay terminates after finitely many increments, every
increment is positive and at most one 100 ms chunk (0.1 s, the last one
being the partial remainder), and the increments sum exactly to
`delay_ms / 1000` seconds, with no accumulated drift. -/
theorem interruptible_delay_terminates_exact_sum (delay_ms : Nat) :
    ∃ l, interruptible_delay delay_ms = some l ∧
      l.sum = (delay_ms : ℚ) / 1000 ∧ ∀ s ∈ l, 0 < s ∧ s ≤ 1 / 10 := by
  have h0 : (0 : ℚ) ≤ (delay_ms : ℚ) / 1000 := by positivity
  have hdm : 100 * (delay_ms / 100) + delay_ms % 100 = delay_ms :=
    Nat.div_add_mod delay_ms 100
  have hq : (delay_ms : ℚ) = 100 * (↑(delay_ms / 100) : ℚ) + ↑(delay_ms % 100) := by
    exact_mod_cast hdm.symm
  have hmod : (↑(delay_ms % 100) : ℚ) < 100 := by
    exact_mod_cast Nat.mod_lt delay_ms (by norm_num)
  have hb : (delay_ms : ℚ) / 1000 - 0 ≤ (delay_ms / 100 + 1 : ℕ) * (1 / 10) := by
    push_cast
    rw [hq]
    linarith
  obtain ⟨l, hl, hsum, hbnd⟩ := delay_loop_spec (delay_ms / 100 + 1) 0 _ h0 hb
  exact ⟨l, hl, by simpa using hsum, hbnd⟩

/-- C9 counterexample: with every other field valid and `payload_file`
absent, a JSON string as `payload_inline` is rejected by the field's
declared `Optional[Dict[str, Any]]` type, while a JSON object is accepted —
so not every JSON value is accepted as an inline payload. -/
theorem payload_inline_rejects_json_string :
    (mk_endpoint_raw "GET" "/api/test" 200 0 (some (Json.str "hello")) none).isOk
        = false ∧
    (mk_endpoint_raw "GET" "/api/test" 200 0
        (some (Json.obj [("message", Json.str "test")])) none).isOk = true :=
  ⟨rfl, rfl⟩

/-- C9 (amended): for an endpoint entry whose other fields are valid and
whose `payload_file` is absent, a JSON object is accepted as
`payload_inline`, a JSON string, number or boolean is rejected by the
field's declared dict type, and JSON `null` is treated exactly as if the
field were absent (so it does not count as a payload source). -/
theorem payload_inline_objects_only (m p : String) (s d : Int)
    (hm : isupper m = true) (hs1 : 100 ≤ s) (hs2 : s ≤ 599) (hd : 0 ≤ d) :
    (∀ o, (mk_endpoint_raw m p s d (some (Json.obj o)) none).isOk = true) ∧
    (∀ v, (mk_endpoint_raw m p s d (some (Json.str v)) none).isOk = false) ∧
    (∀ n, (mk_endpoint_raw m p s d (some (Json.num n)) none).isOk = false) ∧
    (∀ b, (mk_endpoint_raw m p s d (some (Json.bool b)) none).isOk = false) ∧
    mk_endpoint_raw m p s d (some Json.null) none = mk_endpoint_raw m p s d none none := by
  refine ⟨?_, fun v => rfl, fun n => rfl, fun b => rfl, rfl⟩
  intro o
  have hok : check_endpoint ⟨m, p, s, d, some o, none⟩ = .ok () := by
    unfold check_endpoint
    split_ifs with h1 h2 h3 h4 h5 <;> simp_all <;> omega
  simp only [mk_endpoint_raw, validate_payload_inline_field, hok]
  rfl

/-- Witness for the amended C9 at the test fixture's field values. -/
theorem payload_inline_objects_only_witness :
    (∀ o, (mk_endpoint_raw "GET" "/api/test" 200 0 (some (Json.obj o)) none).isOk
        = true) ∧
    (∀ v, (mk_endpoint_raw "GET" "/api/test" 200 0 (some (Json.str v)) none).isOk
        = false) ∧
    (∀ n, (mk_endpoint_raw "GET" "/api/test" 200 0 (some (Json.num n)) none).isOk
        = false) ∧
    (∀ b, (mk_endpoint_raw "GET" "/api/test" 200 0 (some (Json.bool b)) none).isOk
        = false) ∧
    mk_endpoint_raw "GET" "/api/test" 200 0 (some Json.null) none =
      mk_endpoint_raw "GET" "/api/test" 200 0 none none :=
  payload_inline_objects_only "GET" "/api/test" 200 0 rfl
    (by norm_num) (by norm_num) (by norm_num)

/-- Two endpoints sharing the key `(GET, /dup)`, used by the C10 witness. -/
def ep_dup1 : Endpoint := ⟨"GET", "/dup", 200, 0, some [("v", Json.num 1)], none⟩

/-- The later duplicate of `ep_dup1`'s key, with a different status and
payload. -/
def ep_dup2 : Endpoint := ⟨"GET", "/dup", 500, 0, some [("v", Json.num 2)], none⟩

/-- C10: duplicate `(method, path)` keys are not a construction error — a
configuration whose endpoints all pass their individual validation loads
successfully whether or not keys repeat — and the endpoint table is built
last-wins: every lookup returns the endpoint appearing latest in the
configured list with that exact key, and the dispatcher synthesizes the
response for that key from that endpoint alone. -/
theorem duplicate_keys_last_wins (es : List Endpoint) (file_exists : String → Bool)
    (fs : String → Option Json)
    (hall : es.all (fun e => (check_endpoint e).isOk) = true)
    (hne : es.isEmpty = false)
    (hfiles : (missing_files es file_exists).isEmpty = true) :
    load_config es file_exists = .ok es ∧
    (∀ k, endpoint_map es k =
        es.reverse.find? (fun e => decide ((e.method, e.path) = k))) ∧
    (∀ k e, endpoint_map es k = some e →
        handle_request (endpoint_map es) fs k.1 k.2 = handle_matched_endpoint fs k.1 e) := by
  refine ⟨?_, fun k => endpoint_map_eq_find es k, ?_⟩
  · unfold load_config
    rw [check_endpoints_ok_of_all es hall, hne]
    simp [hfiles]
  · intro k e h
    unfold handle_request
    have hk : (k.1, k.2) = k := rfl
    rw [hk, h]

/-- Witness for C10: a configuration with two endpoints under the same
`(GET, /dup)` key loads successfully and lookups follow last-wins. -/
theorem duplicate_keys_last_wins_witness :
    load_config [ep_dup1, ep_dup2] (fun _ => true) = .ok [ep_dup1, ep_dup2] ∧
    (∀ k, endpoint_map [ep_dup1, ep_dup2] k =
        [ep_dup1, ep_dup2].reverse.find? (fun e => decide ((e.method, e.path) = k))) ∧
    (∀ k e, endpoint_map [ep_dup1, ep_dup2] k = some e →
        handle_request (endpoint_map [ep_dup1, ep_dup2]) no_fs k.1 k.2 =
          handle_matched_endpoint no_fs k.1 e) :=
  duplicate_keys_last_wins [ep_dup1, ep_dup2] (fun _ => true) no_fs rfl rfl rfl
